import Mathlib

/-!
Verification of the zigchainMultisend batch dispatch and recovery engine.

Shallow embedding of the TypeScript sources:
  src/batch-processor.ts   (BatchProcessor: splitIntoBatches, processBatches,
                            saveTransactionHash, saveFailedBatch)
  src/retry-failed-batches.ts (FailedBatchRetrier: getFailedBatches, retryBatch,
                            retryAllBatches, removeFromFailedBatches)
  src/multisend.ts         (MultiSendService: createMultiSendTx, executeMultiSend)
  src/index.ts, src/config.ts (parseArgs, validateConfig, pre-batching checks)

Modelling conventions:
  - Recipient.amount is a decimal string in the source and is always consumed
    through BigInt(amount); we model the denoted arbitrary-precision unsigned
    integer directly as a Nat.
  - Wall-clock timestamps written into ledger entries are not modelled; ledger
    entry strings carry the other fields of the source format.
  - The network and the file system are oracles: the transaction builder is a
    function from the attempt index to a result, and the fallibility of each
    fs write is a Boolean flag consulted at the program point where the source
    performs that write.  A thrown exception is an Except.error value.
  - Waits (setTimeout sleeps) and submissions are recorded in an event trace.
-/

namespace ZigMultisend

/-- Model of the Recipient interface of src/types.ts: address plus the
arbitrary-precision unsigned integer denoted by the decimal amount string. -/
structure Recipient where
  address : String
  amount : Nat
deriving DecidableEq, Repr

/-! ## Batcher: BatchProcessor.splitIntoBatches (src/batch-processor.ts 33-41)

The source loop is
  for (let i = 0; i < recipients.length; i += this.batchSize)
    batches.push(recipients.slice(i, i + this.batchSize));
Each iteration with batchSize >= 1 consumes batchSize elements, so the loop
makes at most recipients.length iterations; the fuel argument of splitGo is
that bound, making the recursion structural.  For batchSize = 0 the source
loop does not terminate; a total model cannot express that, and every
statement below assumes the documented precondition batchSize >= 1. -/

def splitGo (batchSize : Nat) : Nat → List Recipient → List (List Recipient)
  | _, [] => []
  | 0, _ :: _ => []
  | fuel + 1, r :: rs =>
      ((r :: rs).take batchSize) :: splitGo batchSize fuel (rs.drop (batchSize - 1))

def splitIntoBatches (batchSize : Nat) (recipients : List Recipient) :
    List (List Recipient) :=
  splitGo batchSize recipients.length recipients

/-! ## Events and the per-batch retry loop of BatchProcessor.processBatches
(src/batch-processor.ts 134-158)

The source loop is
  while (retryCount <= this.maxRetries && !hash) {
    if (retryCount > 0) { await this.sleep(this.retryDelayMs); }
    try { hash = await multiSendService.executeMultiSend(batchRecipients); }
    catch (err) { lastError = err; retryCount++; }
  }
With retryCount starting at c, the loop runs at most maxRetries + 1 - c more
iterations; that bound is the structurally decreasing remaining argument of
retryLoopGo. -/

/-- Observable effects of the engine: a setTimeout wait of the given
duration in milliseconds, or a submission of a recipient list to the
Transaction Builder on the given (0-based) attempt index. -/
inductive Ev where
  | sleep (ms : Nat)
  | submit (recipients : List Recipient) (attempt : Nat)
deriving DecidableEq, Repr

/-- Result of the processBatches while loop: the hash variable, the lastError
variable (the message of the last caught error), the number of
executeMultiSend calls made, and the trace of waits and submissions. -/
structure LoopResult where
  hash : Option String
  lastError : Option String
  attempts : Nat
  trace : List Ev
deriving DecidableEq, Repr

def retryLoopGo (B : List Recipient) (builder : Nat → Except String String)
    (retryDelay : Nat) : Nat → Nat → LoopResult
  | 0, _ => ⟨none, none, 0, []⟩
  | remaining + 1, c =>
      let pre : List Ev := if 0 < c then [Ev.sleep retryDelay] else []
      match builder c with
      | Except.ok h => ⟨some h, none, 1, pre ++ [Ev.submit B c]⟩
      | Except.error e =>
          let rest := retryLoopGo B builder retryDelay remaining (c + 1)
          ⟨rest.hash, some (rest.lastError.getD e), rest.attempts + 1,
            pre ++ Ev.submit B c :: rest.trace⟩

/-- The while loop of src/batch-processor.ts 134-158 entered with
retryCount = 0: at most maxRetries + 1 iterations. -/
def retryLoop (B : List Recipient) (builder : Nat → Except String String)
    (maxRetries retryDelay : Nat) : LoopResult :=
  retryLoopGo B builder retryDelay (maxRetries + 1) 0

/-! ## Outcome Ledger state (transaction-hashes.txt and failed-batches.json) -/

/-- Model of a FailureRecord written by saveFailedBatch
(src/batch-processor.ts 64-70): batch number, full recipient snapshot, and
the error message.  The timestamp field is not modelled. -/
structure FailureRecord where
  batchNumber : Nat
  recipients : List Recipient
  error : String
deriving DecidableEq, Repr

/-- State of the failed-batches.json file: absent, or present with the
records its JSON denotes and a flag saying whether reading and parsing the
file succeeds (readable = false models an unreadable or unparsable file,
whose former records are unrecoverable bytes). -/
inductive FailStore where
  | absent
  | present (records : List FailureRecord) (readable : Bool)
deriving DecidableEq, Repr

/-- Message carried by a thrown fs write error in this model. -/
def ioErrorMsg : String := "ledger write failed"

/-- Settlement line appended by BatchProcessor.saveTransactionHash
(src/batch-processor.ts 46-52), without the timestamp field. -/
def hashEntry (batchNumber : Nat) (hash : String) (recipientCount : Nat) :
    String :=
  "Batch #" ++ toString batchNumber ++ " | " ++ toString recipientCount ++
    " recipients | Hash: " ++ hash

/-- Error line appended by the catch block of processBatches
(src/batch-processor.ts 180-182), without the timestamp field. -/
def errorEntry (batchNumber recipientCount : Nat) (msg : String) : String :=
  "Batch #" ++ toString batchNumber ++ " | " ++ toString recipientCount ++
    " recipients | ERROR: " ++ msg

/-- Whether each fs write performed for one batch of processBatches succeeds:
the appendFileSync of the settlement line (line 49), the appendFileSync of
the error line (line 182), and the writeFileSync of failed-batches.json
inside saveFailedBatch (line 83). -/
structure BatchIO where
  hashAppendOk : Bool
  errAppendOk : Bool
  storeWriteOk : Bool
deriving DecidableEq, Repr

/-- All ledger writes succeed. -/
def ioAllOk : BatchIO := ⟨true, true, true⟩

/-- Mutable state threaded through processBatches: the hashes array, the
lines of transaction-hashes.txt, and the failed-batches.json state. -/
structure EngineState where
  hashes : List String
  hashesFile : List String
  failStore : FailStore
deriving DecidableEq, Repr

/-- BatchProcessor.saveFailedBatch (src/batch-processor.ts 64-85): read the
existing store, treating a missing file as empty and an unreadable or
unparsable file as empty with a console warning; append the new record; then
writeFileSync the whole list, whose failure propagates (there is no try
around the write).  Returns the new store and whether the warning fired. -/
def saveFailedBatch (writeOk : Bool) (st : FailStore) (rec : FailureRecord) :
    Except String (FailStore × Bool) :=
  let readResult : List FailureRecord × Bool :=
    match st with
    | FailStore.absent => ([], false)
    | FailStore.present rs true => (rs, false)
    | FailStore.present _ false => ([], true)
  if writeOk then
    Except.ok (FailStore.present (readResult.1 ++ [rec]) true, readResult.2)
  else
    Except.error ioErrorMsg

/-- The catch block of processBatches (src/batch-processor.ts 176-192):
append the error line to transaction-hashes.txt (fatal if that append
throws), then saveFailedBatch with the original batch recipients and the
error message (fatal if its write throws), then continue. -/
def handleBatchError (bio : BatchIO) (batchNumber : Nat) (B : List Recipient)
    (msg : String) (es : EngineState) : Except String EngineState :=
  if bio.errAppendOk then
    let es1 : EngineState :=
      { es with hashesFile := es.hashesFile ++ [errorEntry batchNumber B.length msg] }
    match saveFailedBatch bio.storeWriteOk es1.failStore ⟨batchNumber, B, msg⟩ with
    | Except.ok (st, _) => Except.ok { es1 with failStore := st }
    | Except.error e => Except.error e
  else
    Except.error ioErrorMsg

/-- One iteration of the batch loop of processBatches
(src/batch-processor.ts 101-193) for the batch with 1-based number
batchNumber and recipients B.  On a hash: push it onto hashes (line 161),
then saveTransactionHash (line 168) whose appendFileSync failure is caught by
the same per-batch catch block.  On no hash: throw lastError (line 157) into
the catch block. -/
def processOneBatch (builder : Nat → Except String String)
    (maxRetries retryDelay : Nat) (bio : BatchIO) (batchNumber : Nat)
    (B : List Recipient) (es : EngineState) : Except String EngineState :=
  let r := retryLoop B builder maxRetries retryDelay
  match r.hash with
  | some h =>
      let es1 : EngineState := { es with hashes := es.hashes ++ [h] }
      if bio.hashAppendOk then
        Except.ok
          { es1 with hashesFile := es1.hashesFile ++ [hashEntry batchNumber h B.length] }
      else
        handleBatchError bio batchNumber B ioErrorMsg es1
  | none =>
      handleBatchError bio batchNumber B
        (r.lastError.getD "All retry attempts failed") es

def processBatchesAux (builder : Nat → Nat → Except String String)
    (maxRetries retryDelay : Nat) (io : Nat → BatchIO) :
    Nat → List (List Recipient) → EngineState → Except String EngineState
  | _, [], es => Except.ok es
  | i, B :: rest, es =>
      match processOneBatch (builder i) maxRetries retryDelay (io i) (i + 1) B es with
      | Except.ok es1 => processBatchesAux builder maxRetries retryDelay io (i + 1) rest es1
      | Except.error e => Except.error e

/-- BatchProcessor.processBatches (src/batch-processor.ts 90-196): split the
recipients, then drive every batch in order through the per-batch loop,
starting from an empty hashes array and a freshly truncated
transaction-hashes.txt.  builder i k is the outcome of the k-th
executeMultiSend call for the i-th (0-based) batch; io i tells which ledger
writes succeed for that batch.  An uncaught fs exception aborts the whole
run as Except.error. -/
def processBatches (builder : Nat → Nat → Except String String)
    (batchSize maxRetries retryDelay : Nat) (io : Nat → BatchIO)
    (recipients : List Recipient) (st0 : FailStore) :
    Except String EngineState :=
  processBatchesAux builder maxRetries retryDelay io 0
    (splitIntoBatches batchSize recipients) ⟨[], [], st0⟩

/-! ## Specification-side descriptions of a whole run

The following three lists are written from the words of the spec, not from
the source: the hashes of the batches that settled, in batch order; the
ledger lines, one per batch; and the FailureRecords persisted for the
batches that exhausted their attempts.  The run theorems compare the engine
model against them. -/

def settledHashesSpec (builder : Nat → Nat → Except String String)
    (maxRetries retryDelay : Nat) : Nat → List (List Recipient) → List String
  | _, [] => []
  | i, B :: rest =>
      match (retryLoop B (builder i) maxRetries retryDelay).hash with
      | some h => h :: settledHashesSpec builder maxRetries retryDelay (i + 1) rest
      | none => settledHashesSpec builder maxRetries retryDelay (i + 1) rest

def ledgerEntriesSpec (builder : Nat → Nat → Except String String)
    (maxRetries retryDelay : Nat) : Nat → List (List Recipient) → List String
  | _, [] => []
  | i, B :: rest =>
      match (retryLoop B (builder i) maxRetries retryDelay).hash with
      | some h =>
          hashEntry (i + 1) h B.length ::
            ledgerEntriesSpec builder maxRetries retryDelay (i + 1) rest
      | none =>
          errorEntry (i + 1) B.length
              ((retryLoop B (builder i) maxRetries retryDelay).lastError.getD
                "All retry attempts failed") ::
            ledgerEntriesSpec builder maxRetries retryDelay (i + 1) rest

def failureRecordsSpec (builder : Nat → Nat → Except String String)
    (maxRetries retryDelay : Nat) : Nat → List (List Recipient) → List FailureRecord
  | _, [] => []
  | i, B :: rest =>
      match (retryLoop B (builder i) maxRetries retryDelay).hash with
      | some _ => failureRecordsSpec builder maxRetries retryDelay (i + 1) rest
      | none =>
          (⟨i + 1, B,
              (retryLoop B (builder i) maxRetries retryDelay).lastError.getD
                "All retry attempts failed"⟩ : FailureRecord) ::
            failureRecordsSpec builder maxRetries retryDelay (i + 1) rest

/-! ## FailedBatchRetrier (src/retry-failed-batches.ts)

State of the retrier: the lines of transaction-hashes.txt and the
failed-batches.json state.  The fs writes of the retrier are not
failure-modelled (no claim concerns them). -/

structure RetrierState where
  hashesFile : List String
  failStore : FailStore
deriving DecidableEq, Repr

/-- FailedBatchRetrier.getFailedBatches (src/retry-failed-batches.ts 67-80):
a missing file and an unreadable or unparsable file both yield the empty
list (the latter with a logged error). -/
def getFailedBatches (st : FailStore) : List FailureRecord :=
  match st with
  | FailStore.absent => []
  | FailStore.present rs true => rs
  | FailStore.present _ false => []

/-- FailedBatchRetrier.removeFromFailedBatches
(src/retry-failed-batches.ts 46-62): no-op when the file is missing; on a
read or parse error the file is left unchanged (the catch only logs);
otherwise every record whose batchNumber equals the argument is filtered
out and the remainder written back. -/
def removeFromFailedBatches (batchNumber : Nat) (st : FailStore) : FailStore :=
  match st with
  | FailStore.absent => FailStore.absent
  | FailStore.present rs true =>
      FailStore.present (rs.filter (fun r => r.batchNumber != batchNumber)) true
  | FailStore.present rs false => FailStore.present rs false

/-- Retry line appended by FailedBatchRetrier.saveTransactionHash
(src/retry-failed-batches.ts 35-41), without the timestamp field. -/
def retryHashEntry (batchNumber : Nat) (hash : String) (recipientCount : Nat) :
    String :=
  "Batch #" ++ toString batchNumber ++ " | " ++ toString recipientCount ++
    " recipients | Hash: " ++ hash ++ " (RETRY)"

/-- Result of the retryBatch while loop: the hash of the successful attempt
if any, the number of executeMultiSend calls made, and the trace. -/
structure ResumeResult where
  hash : Option String
  attempts : Nat
  trace : List Ev
deriving DecidableEq, Repr

/-! The source loop of FailedBatchRetrier.retryBatch
(src/retry-failed-batches.ts 100-127) is
  while (retryCount < maxRetries && !success) {
    try { hash = await executeMultiSend(batchToRetry.recipients); ... success = true; }
    catch { retryCount++; if (retryCount < maxRetries) { await this.sleep(10000); } }
  }
With retryCount starting at c it runs at most maxRetries - c more
iterations; that bound is the remaining argument of resumeLoopGo.  The
10000 ms wait happens after a failed attempt only when another attempt
remains. -/

def resumeLoopGo (R : List Recipient) (builder : Nat → Except String String) :
    Nat → Nat → ResumeResult
  | 0, _ => ⟨none, 0, []⟩
  | remaining + 1, c =>
      match builder c with
      | Except.ok h => ⟨some h, 1, [Ev.submit R c]⟩
      | Except.error _ =>
          let rest := resumeLoopGo R builder remaining (c + 1)
          ⟨rest.hash, rest.attempts + 1,
            Ev.submit R c ::
              ((if 0 < remaining then [Ev.sleep 10000] else []) ++ rest.trace)⟩

/-- The retryBatch while loop entered with retryCount = 0: at most
maxRetries iterations. -/
def resumeLoop (R : List Recipient) (builder : Nat → Except String String)
    (maxRetries : Nat) : ResumeResult :=
  resumeLoopGo R builder maxRetries 0

/-- Outcome of FailedBatchRetrier.retryBatch: the returned Boolean, the
retrier state after it, and the trace of effects. -/
structure RetryOutcome where
  success : Bool
  state : RetrierState
  trace : List Ev
deriving DecidableEq, Repr

/-- FailedBatchRetrier.retryBatch (src/retry-failed-batches.ts 85-130): find
the FailureRecord with the requested batch number (failing with false and no
mutation when none exists), then run the attempt loop on the recorded
recipient snapshot; on success append the retry line and remove the record,
on exhaustion return false leaving the store unchanged. -/
def retryBatch (builder : Nat → Except String String) (maxRetries batchNumber : Nat)
    (st : RetrierState) : RetryOutcome :=
  match (getFailedBatches st.failStore).find?
      (fun r => r.batchNumber == batchNumber) with
  | none => ⟨false, st, []⟩
  | some rec =>
      let r := resumeLoop rec.recipients builder maxRetries
      match r.hash with
      | some h =>
          ⟨true,
            ⟨st.hashesFile ++ [retryHashEntry batchNumber h rec.recipients.length],
              removeFromFailedBatches batchNumber st.failStore⟩,
            r.trace⟩
      | none => ⟨false, st, r.trace⟩

/-- Outcome of FailedBatchRetrier.retryAllBatches: the success and failure
counters, the batch numbers processed in order, and the final state. -/
structure RetryAllOutcome where
  success : Nat
  failed : Nat
  order : List Nat
  state : RetrierState
deriving DecidableEq, Repr

def retryAllAux (builder : Nat → Nat → Except String String) (maxRetries : Nat) :
    Nat → List FailureRecord → RetrierState → RetryAllOutcome
  | _, [], st => ⟨0, 0, [], st⟩
  | i, rec :: rest, st =>
      let o := retryBatch (builder i) maxRetries rec.batchNumber st
      let restOutcome := retryAllAux builder maxRetries (i + 1) rest o.state
      ⟨(if o.success then 1 else 0) + restOutcome.success,
        (if o.success then 0 else 1) + restOutcome.failed,
        rec.batchNumber :: restOutcome.order,
        restOutcome.state⟩

/-- FailedBatchRetrier.retryAllBatches (src/retry-failed-batches.ts 135-166):
snapshot the outstanding FailureRecords once, then call retryBatch for each
record in stored order, one at a time, counting successes and failures.
builder i is the Transaction Builder behaviour seen by the i-th record. -/
def retryAllBatches (builder : Nat → Nat → Except String String)
    (maxRetries : Nat) (st : RetrierState) : RetryAllOutcome :=
  retryAllAux builder maxRetries 0 (getFailedBatches st.failStore) st

/-! ## MultiSendService (src/multisend.ts) -/

/-- Model of the MsgMultiSend payload built by createMultiSendTx: the single
input (sender address and the batch total) and the outputs. -/
structure MultiSendTxM where
  inputAddress : String
  inputAmount : Nat
  outputs : List Recipient
deriving DecidableEq, Repr

/-- The reduce over BigInt(recipient.amount) of src/multisend.ts 22-25 and
65-68: the arbitrary-precision sum of the batch amounts. -/
def batchTotal (recipients : List Recipient) : Nat :=
  recipients.foldl (fun sum r => sum + r.amount) 0

/-- MultiSendService.createMultiSendTx (src/multisend.ts 18-53). -/
def createMultiSendTx (sender : String) (recipients : List Recipient) :
    MultiSendTxM :=
  ⟨sender, batchTotal recipients, recipients⟩

/-- MultiSendService.executeMultiSend (src/multisend.ts 58-85): compute the
batch total with BigInt arithmetic, throw the insufficient-balance error
when balance < total, otherwise build the MsgMultiSend and submit it via
signAndBroadcast.  The second component records whether signAndBroadcast
was invoked.  The catch of the source rethrows unchanged after logging, so
it is the identity on the error value. -/
def executeMultiSend (sender : String) (balance : Nat)
    (signAndBroadcast : MultiSendTxM → Except String String)
    (recipients : List Recipient) : Except String String × Bool :=
  let totalAmount := batchTotal recipients
  if balance < totalAmount then
    (Except.error ("Insufficient balance. Required: " ++ toString totalAmount ++
      ", Available: " ++ toString balance), false)
  else
    (signAndBroadcast (createMultiSendTx sender recipients), true)

/-! ## Configuration checks (src/config.ts and src/index.ts) -/

/-- validateConfig (src/config.ts): fails exactly when neither MNEMONIC nor
PRIVATE_KEY is configured; it checks nothing else. -/
def validateConfig (mnemonic privateKey : Option String) : Bool :=
  mnemonic.isSome || privateKey.isSome

/-- The pre-batching fatal checks of main (src/index.ts 55-88) on a
non-retry run: exit(1) when validateConfig fails or when the recipient list
is empty.  parseArgs (src/index.ts 10-19) performs no validation of
batchSize, and main passes args.batchSize to the BatchProcessor
constructor unchecked, so the result does not depend on batchSize. -/
def preBatchingFatalError (mnemonic privateKey : Option String)
    (recipients : List Recipient) (batchSize : Int) : Bool :=
  !validateConfig mnemonic privateKey || recipients.isEmpty

/-! ## Theorems -/

theorem splitGo_flatten (batchSize : Nat) (hN : 1 ≤ batchSize) :
    ∀ (fuel : Nat) (l : List Recipient), l.length ≤ fuel →
      (splitGo batchSize fuel l).flatten = l := by
  intro fuel
  induction fuel with
  | zero =>
      intro l hl
      cases l with
      | nil => rfl
      | cons r rs => simp at hl
  | succ n ih =>
      intro l hl
      cases l with
      | nil => rfl
      | cons r rs =>
          obtain ⟨m, rfl⟩ : ∃ m, batchSize = m + 1 := ⟨batchSize - 1, by omega⟩
          have hlen : (rs.drop m).length ≤ n := by
            simp only [List.length_drop]
            simp only [List.length_cons] at hl
            omega
          simp only [splitGo, List.flatten_cons, ih _ hlen, List.take_succ_cons,
            Nat.add_sub_cancel, List.cons_append]
          rw [List.take_append_drop]

theorem splitGo_sizes (batchSize : Nat) (hN : 1 ≤ batchSize) :
    ∀ (fuel : Nat) (l : List Recipient), ∀ b ∈ splitGo batchSize fuel l,
      1 ≤ b.length ∧ b.length ≤ batchSize := by
  intro fuel
  induction fuel with
  | zero =>
      intro l b hb
      cases l with
      | nil => simp [splitGo] at hb
      | cons r rs => simp [splitGo] at hb
  | succ n ih =>
      intro l b hb
      cases l with
      | nil => simp [splitGo] at hb
      | cons r rs =>
          simp only [splitGo, List.mem_cons] at hb
          rcases hb with rfl | hb
          · constructor
            · simp only [List.length_take, List.length_cons]
              omega
            · simp [List.length_take]
          · exact ih _ b hb

/-- Claim C1: partition correctness of the Batcher.  For every recipient
sequence R and batch size N >= 1, concatenating the batches of split(R, N) in
order reproduces R exactly; every batch has size between 1 and N; and the
empty input yields an empty sequence of batches. -/
theorem C1_split_partition (R : List Recipient) (N : Nat) (hN : 1 ≤ N) :
    (splitIntoBatches N R).flatten = R ∧
    (∀ b ∈ splitIntoBatches N R, 1 ≤ b.length ∧ b.length ≤ N) ∧
    splitIntoBatches N [] = [] := by
  refine ⟨splitGo_flatten N hN R.length R le_rfl, ?_, rfl⟩
  intro b hb
  exact splitGo_sizes N hN R.length R b hb

/-- Witness for C1 at N = 2 and a concrete three-element recipient list. -/
theorem C1_split_partition_witness :
    (splitIntoBatches 2 [⟨"a", 1⟩, ⟨"b", 2⟩, ⟨"c", 3⟩]).flatten =
        [⟨"a", 1⟩, ⟨"b", 2⟩, ⟨"c", 3⟩] ∧
    (∀ b ∈ splitIntoBatches 2 [⟨"a", 1⟩, ⟨"b", 2⟩, ⟨"c", 3⟩],
        1 ≤ b.length ∧ b.length ≤ 2) ∧
    splitIntoBatches 2 [] = [] :=
  C1_split_partition [⟨"a", 1⟩, ⟨"b", 2⟩, ⟨"c", 3⟩] 2 (by decide)

theorem retryLoopGo_allFail (B : List Recipient)
    (builder : Nat → Except String String) (d : Nat) :
    ∀ (remaining c : Nat),
      (∀ k, c ≤ k → k < c + remaining → (builder k).isOk = false) →
      (retryLoopGo B builder d remaining c).hash = none ∧
      (retryLoopGo B builder d remaining c).attempts = remaining ∧
      (retryLoopGo B builder d remaining c).trace =
        (List.range' c remaining).flatMap
          (fun k => (if 0 < k then [Ev.sleep d] else []) ++ [Ev.submit B k]) := by
  intro remaining
  induction remaining with
  | zero => intro c hb; exact ⟨rfl, rfl, rfl⟩
  | succ n ih =>
      intro c hb
      have hc : (builder c).isOk = false := hb c le_rfl (by omega)
      cases hbc : builder c with
      | ok h => rw [hbc] at hc; simp [Except.isOk, Except.toBool] at hc
      | error e =>
          have ihc := ih (c + 1) (fun k hk1 hk2 => hb k (by omega) (by omega))
          refine ⟨?_, ?_, ?_⟩
          · simp only [retryLoopGo, hbc]
            exact ihc.1
          · simp only [retryLoopGo, hbc]
            rw [ihc.2.1]
          · simp only [retryLoopGo, hbc, ihc.2.2, List.range'_succ]
            simp [List.append_assoc]

/-- Claim C2: retry bound of runAll.  When the Transaction Builder fails
every attempt, the per-batch loop of processBatches makes exactly
maxRetries + 1 submission attempts, the retry delay is awaited between
attempts but not before the first attempt, and the batch then persists a
FailureRecord carrying the last error message. -/
theorem C2_retry_bound (B : List Recipient)
    (builder : Nat → Except String String) (maxRetries d : Nat) (msg : String)
    (bn : Nat) (hs hf : List String) (rs0 : List FailureRecord)
    (hb : ∀ k, k < maxRetries + 1 → (builder k).isOk = false)
    (hmsg : (retryLoop B builder maxRetries d).lastError = some msg) :
    (retryLoop B builder maxRetries d).attempts = maxRetries + 1 ∧
    (retryLoop B builder maxRetries d).hash = none ∧
    (retryLoop B builder maxRetries d).trace =
      Ev.submit B 0 ::
        (List.range maxRetries).flatMap (fun k => [Ev.sleep d, Ev.submit B (k + 1)]) ∧
    processOneBatch builder maxRetries d ioAllOk bn B ⟨hs, hf, FailStore.present rs0 true⟩ =
      Except.ok ⟨hs, hf ++ [errorEntry bn B.length msg],
        FailStore.present (rs0 ++ [⟨bn, B, msg⟩]) true⟩ := by
  have h := retryLoopGo_allFail B builder d (maxRetries + 1) 0
    (fun k hk1 hk2 => hb k (by omega))
  have htr : (retryLoop B builder maxRetries d).trace =
      Ev.submit B 0 ::
        (List.range maxRetries).flatMap (fun k => [Ev.sleep d, Ev.submit B (k + 1)]) := by
    rw [show retryLoop B builder maxRetries d =
          retryLoopGo B builder d (maxRetries + 1) 0 from rfl, h.2.2]
    rw [List.range'_succ, List.flatMap_cons, List.range'_eq_map_range,
      List.flatMap_map]
    rw [if_neg (by omega : ¬ (0 : Nat) < 0)]
    simp only [List.nil_append, List.singleton_append]
    congr 1
    apply List.flatMap_congr
    intro j hj
    rw [show (0 : Nat) + 1 + j = j + 1 from by omega]
    rw [if_pos (by omega : 0 < j + 1)]
    rfl
  have hh : (retryLoop B builder maxRetries d).hash = none := h.1
  refine ⟨h.2.1, hh, htr, ?_⟩
  simp [processOneBatch, hh, hmsg, handleBatchError, ioAllOk, saveFailedBatch]

/-- Witness for C2: a builder that fails every attempt with message boom,
maxRetries = 2, retryDelay = 7. -/
theorem C2_retry_bound_witness :
    (retryLoop [⟨"a", 1⟩] (fun _ => Except.error "boom") 2 7).attempts = 2 + 1 ∧
    (retryLoop [⟨"a", 1⟩] (fun _ => Except.error "boom") 2 7).hash = none ∧
    (retryLoop [⟨"a", 1⟩] (fun _ => Except.error "boom") 2 7).trace =
      Ev.submit [⟨"a", 1⟩] 0 ::
        (List.range 2).flatMap (fun k => [Ev.sleep 7, Ev.submit [⟨"a", 1⟩] (k + 1)]) ∧
    processOneBatch (fun _ => Except.error "boom") 2 7 ioAllOk 1 [⟨"a", 1⟩]
        ⟨[], [], FailStore.present [] true⟩ =
      Except.ok ⟨[], [] ++ [errorEntry 1 [(⟨"a", 1⟩ : Recipient)].length "boom"],
        FailStore.present ([] ++ [⟨1, [⟨"a", 1⟩], "boom"⟩]) true⟩ :=
  C2_retry_bound [⟨"a", 1⟩] (fun _ => Except.error "boom") 2 7 "boom" 1 [] [] []
    (by decide) (by rfl)

theorem processBatchesAux_allOk (builder : Nat → Nat → Except String String)
    (maxRetries retryDelay : Nat) :
    ∀ (bs : List (List Recipient)) (i : Nat) (hs hf : List String)
      (rs0 : List FailureRecord),
      processBatchesAux builder maxRetries retryDelay (fun _ => ioAllOk) i bs
          ⟨hs, hf, FailStore.present rs0 true⟩ =
        Except.ok ⟨hs ++ settledHashesSpec builder maxRetries retryDelay i bs,
          hf ++ ledgerEntriesSpec builder maxRetries retryDelay i bs,
          FailStore.present
            (rs0 ++ failureRecordsSpec builder maxRetries retryDelay i bs) true⟩ := by
  intro bs
  induction bs with
  | nil =>
      intro i hs hf rs0
      simp [processBatchesAux, settledHashesSpec, ledgerEntriesSpec,
        failureRecordsSpec]
  | cons B rest ih =>
      intro i hs hf rs0
      have e1 : ioAllOk.hashAppendOk = true := rfl
      have e2 : ioAllOk.errAppendOk = true := rfl
      have e3 : ioAllOk.storeWriteOk = true := rfl
      cases hh : (retryLoop B (builder i) maxRetries retryDelay).hash with
      | some h =>
          simp only [processBatchesAux, processOneBatch, hh, e1,
            eq_self_iff_true, if_true]
          rw [ih]
          simp [settledHashesSpec, ledgerEntriesSpec, failureRecordsSpec, hh,
            List.append_assoc]
      | none =>
          simp only [processBatchesAux, processOneBatch, hh, handleBatchError,
            saveFailedBatch, e2, e3, eq_self_iff_true, if_true]
          rw [ih]
          simp [settledHashesSpec, ledgerEntriesSpec, failureRecordsSpec, hh,
            List.append_assoc]

/-- Claim C3: failure persistence and continuation in runAll.  With the
ledger writes succeeding and a readable failure store, a whole run settles
every batch whose loop produced a hash and, for every batch that exhausted
all attempts, appends a FailureRecord carrying that batch number, the
original unmodified recipient snapshot of the batch, and the last error
message; the run never aborts (the result is ok, every batch is processed)
and the returned hash list is exactly the hashes of the settled batches in
batch order. -/
theorem C3_failure_persistence (builder : Nat → Nat → Except String String)
    (batchSize maxRetries retryDelay : Nat) (R : List Recipient)
    (rs0 : List FailureRecord) :
    processBatches builder batchSize maxRetries retryDelay (fun _ => ioAllOk) R
        (FailStore.present rs0 true) =
      Except.ok
        ⟨settledHashesSpec builder maxRetries retryDelay 0
            (splitIntoBatches batchSize R),
          ledgerEntriesSpec builder maxRetries retryDelay 0
            (splitIntoBatches batchSize R),
          FailStore.present
            (rs0 ++ failureRecordsSpec builder maxRetries retryDelay 0
              (splitIntoBatches batchSize R)) true⟩ := by
  rw [show processBatches builder batchSize maxRetries retryDelay
        (fun _ => ioAllOk) R (FailStore.present rs0 true) =
      processBatchesAux builder maxRetries retryDelay (fun _ => ioAllOk) 0
        (splitIntoBatches batchSize R) ⟨[], [], FailStore.present rs0 true⟩ from rfl]
  rw [processBatchesAux_allOk]
  simp

/-- Claim C4 counterexample: a run in which batch 1 succeeds immediately
while a FailureRecord for batch number 1 (persisted by a previous run) is
outstanding.  processBatches returns the settled hash but the FailureRecord
for batch 1 is still in the store afterwards: runAll never removes
FailureRecords on success, contradicting the claim. -/
theorem C4_counterexample :
    processBatches (fun _ _ => Except.ok "h") 1 0 0 (fun _ => ioAllOk)
        [⟨"a", 1⟩] (FailStore.present [⟨1, [⟨"b", 2⟩], "old"⟩] true) =
      Except.ok ⟨["h"], [hashEntry 1 "h" 1],
        FailStore.present [⟨1, [⟨"b", 2⟩], "old"⟩] true⟩ := by
  rfl

theorem retryBatch_success_state (b : Nat → Except String String)
    (mr n : Nat) (hf : List String) (rs : List FailureRecord)
    (hsucc : (retryBatch b mr n ⟨hf, FailStore.present rs true⟩).success = true) :
    ∃ rec h, rs.find? (fun r => r.batchNumber == n) = some rec ∧
      retryBatch b mr n ⟨hf, FailStore.present rs true⟩ =
        ⟨true, ⟨hf ++ [retryHashEntry n h rec.recipients.length],
          FailStore.present (rs.filter (fun r => r.batchNumber != n)) true⟩,
          (resumeLoop rec.recipients b mr).trace⟩ := by
  unfold retryBatch at hsucc ⊢
  dsimp only [getFailedBatches] at hsucc ⊢
  cases hfind : rs.find? (fun r => r.batchNumber == n) with
  | none =>
      rw [hfind] at hsucc
      simp at hsucc
  | some rec =>
      rw [hfind] at hsucc
      dsimp only at hsucc ⊢
      cases hres : (resumeLoop rec.recipients b mr).hash with
      | none =>
          rw [hres] at hsucc
          simp at hsucc
      | some h =>
          rw [hres] at hsucc
          refine ⟨rec, h, rfl, ?_⟩
          rfl

/-- Claim C4 as amended: on a batch success during runAll the hash is pushed
and the settlement line appended, and the failure store is left untouched
(runAll never removes a FailureRecord, even a stale one for that exact batch
number); FailureRecords are removed only by the resume path, whose
retryBatch on success filters every record with that batch number out of the
store. -/
theorem C4_success_no_removal (builder : Nat → Except String String)
    (maxRetries retryDelay bn : Nat) (B : List Recipient) (es : EngineState)
    (h : String) (b2 : Nat → Except String String) (mr2 n2 : Nat)
    (hf2 : List String) (rs2 : List FailureRecord)
    (hh : (retryLoop B builder maxRetries retryDelay).hash = some h)
    (hs2 : (retryBatch b2 mr2 n2 ⟨hf2, FailStore.present rs2 true⟩).success = true) :
    processOneBatch builder maxRetries retryDelay ioAllOk bn B es =
      Except.ok ⟨es.hashes ++ [h],
        es.hashesFile ++ [hashEntry bn h B.length], es.failStore⟩ ∧
    (retryBatch b2 mr2 n2 ⟨hf2, FailStore.present rs2 true⟩).state.failStore =
      FailStore.present (rs2.filter (fun r => r.batchNumber != n2)) true := by
  constructor
  · simp [processOneBatch, hh, ioAllOk]
  · obtain ⟨rec, hsh, hfind, heq⟩ := retryBatch_success_state b2 mr2 n2 hf2 rs2 hs2
    rw [heq]

/-- Witness for C4 as amended: batch 2 succeeds immediately in runAll with a
stale record in the store, and a resume of batch 1 succeeds and filters the
record out. -/
theorem C4_success_no_removal_witness :
    processOneBatch (fun _ => Except.ok "h") 3 5 ioAllOk 2 [⟨"a", 1⟩]
        ⟨[], [], FailStore.present [⟨2, [⟨"a", 1⟩], "old"⟩] true⟩ =
      Except.ok ⟨[] ++ ["h"],
        [] ++ [hashEntry 2 "h" [(⟨"a", 1⟩ : Recipient)].length],
        FailStore.present [⟨2, [⟨"a", 1⟩], "old"⟩] true⟩ ∧
    (retryBatch (fun _ => Except.ok "k") 3 1
        ⟨[], FailStore.present [⟨1, [⟨"b", 2⟩], "e"⟩] true⟩).state.failStore =
      FailStore.present
        ([⟨1, [⟨"b", 2⟩], "e"⟩].filter (fun r => r.batchNumber != 1)) true :=
  C4_success_no_removal (fun _ => Except.ok "h") 3 5 2 [⟨"a", 1⟩]
    ⟨[], [], FailStore.present [⟨2, [⟨"a", 1⟩], "old"⟩] true⟩ "h"
    (fun _ => Except.ok "k") 3 1 [] [⟨1, [⟨"b", 2⟩], "e"⟩] (by rfl) (by rfl)

/-- Claim C8 counterexample: one batch whose transaction succeeds while the
appendFileSync of its settlement line fails.  The run does not terminate
with an error: the per-batch catch converts the ledger I/O error into a
persisted FailureRecord (for a batch whose funds were actually sent, and
whose hash is even in the returned list) and the run continues,
contradicting the claim that settlement-log write errors propagate and
terminate the process. -/
theorem C8_counterexample :
    processBatches (fun _ _ => Except.ok "h") 1 0 0
        (fun _ => ⟨false, true, true⟩) [⟨"a", 1⟩] (FailStore.present [] true) =
      Except.ok ⟨["h"], [errorEntry 1 1 ioErrorMsg],
        FailStore.present [⟨1, [⟨"a", 1⟩], ioErrorMsg⟩] true⟩ := by
  rfl

/-- Claim C8 as amended: inside the per-batch failure handler the ledger
writes are fatal — a failing error-line append or a failing
failed-batches.json write makes processOneBatch propagate an error, which
aborts the whole run — but the settlement-line append on the success path is
not: its failure is caught by the per-batch handler and converted into a
persisted FailureRecord while the batch hash stays in the returned list and
the run continues. -/
theorem C8_ledger_io (b1 : Nat → Except String String)
    (mr1 d1 bn1 : Nat) (B1 : List Recipient) (es1 : EngineState) (ha : Bool)
    (b2 : Nat → Except String String) (mr2 d2 bn2 : Nat) (B2 : List Recipient)
    (hs hf : List String) (rs0 : List FailureRecord) (hsh : String)
    (hfail : (retryLoop B1 b1 mr1 d1).hash = none)
    (hok : (retryLoop B2 b2 mr2 d2).hash = some hsh) :
    processOneBatch b1 mr1 d1 ⟨ha, true, false⟩ bn1 B1 es1 =
      Except.error ioErrorMsg ∧
    processOneBatch b1 mr1 d1 ⟨ha, false, true⟩ bn1 B1 es1 =
      Except.error ioErrorMsg ∧
    processOneBatch b2 mr2 d2 ⟨false, true, true⟩ bn2 B2 ⟨hs, hf, FailStore.present rs0 true⟩ =
      Except.ok ⟨hs ++ [hsh], hf ++ [errorEntry bn2 B2.length ioErrorMsg],
        FailStore.present (rs0 ++ [⟨bn2, B2, ioErrorMsg⟩]) true⟩ := by
  refine ⟨?_, ?_, ?_⟩
  · simp [processOneBatch, hfail, handleBatchError, saveFailedBatch]
  · simp [processOneBatch, hfail, handleBatchError]
  · simp [processOneBatch, hok, handleBatchError, saveFailedBatch]

/-- Witness for C8 as amended at concrete builders and states. -/
theorem C8_ledger_io_witness :
    processOneBatch (fun _ => Except.error "net") 0 0 ⟨true, true, false⟩ 1
        [⟨"a", 1⟩] ⟨[], [], FailStore.absent⟩ =
      Except.error ioErrorMsg ∧
    processOneBatch (fun _ => Except.error "net") 0 0 ⟨true, false, true⟩ 1
        [⟨"a", 1⟩] ⟨[], [], FailStore.absent⟩ =
      Except.error ioErrorMsg ∧
    processOneBatch (fun _ => Except.ok "h") 0 0 ⟨false, true, true⟩ 2
        [⟨"b", 2⟩] ⟨[], [], FailStore.present [] true⟩ =
      Except.ok ⟨[] ++ ["h"],
        [] ++ [errorEntry 2 [(⟨"b", 2⟩ : Recipient)].length ioErrorMsg],
        FailStore.present ([] ++ [⟨2, [⟨"b", 2⟩], ioErrorMsg⟩]) true⟩ :=
  C8_ledger_io (fun _ => Except.error "net") 0 0 1 [⟨"a", 1⟩]
    ⟨[], [], FailStore.absent⟩ true (fun _ => Except.ok "h") 0 0 2 [⟨"b", 2⟩]
    [] [] [] "h" (by rfl) (by rfl)

/-- Claim C10: when a terminal failure is recorded while the existing
failed-batches.json is present but unreadable or unparsable, saveFailedBatch
reads it as empty (surfacing only the console warning, the second component)
and then overwrites the store with a list containing only the newly failed
batch, discarding every previously outstanding FailureRecord. -/
theorem C10_corrupt_store_overwrite (rs : List FailureRecord)
    (rec : FailureRecord) :
    saveFailedBatch true (FailStore.present rs false) rec =
      Except.ok (FailStore.present [rec] true, true) := by
  rfl

theorem find?_filter_ne_none (rs : List FailureRecord) (n : Nat) :
    (rs.filter (fun r => r.batchNumber != n)).find?
        (fun r => r.batchNumber == n) = none := by
  rw [List.find?_eq_none]
  intro x hx
  have hpx := List.of_mem_filter hx
  simp only [bne_iff_ne, ne_eq] at hpx
  simp only [beq_iff_eq]
  exact hpx

/-- Claim C5: resume idempotence and not-found behaviour.  Resuming a batch
number with no matching FailureRecord returns false with no state mutation
and no submission; and when a resume of batch n against a readable store
succeeds, a second resume of the same batch number returns false, mutates
nothing, and performs no submission (the successful resume removed every
record with that batch number, so funds are never re-sent). -/
theorem C5_resume_idempotence (b b2 : Nat → Except String String)
    (mr mr2 n : Nat) (st1 : RetrierState) (hf : List String)
    (rs : List FailureRecord)
    (h1 : (getFailedBatches st1.failStore).find?
        (fun r => r.batchNumber == n) = none)
    (h2 : (retryBatch b mr n ⟨hf, FailStore.present rs true⟩).success = true) :
    retryBatch b mr n st1 = ⟨false, st1, []⟩ ∧
    retryBatch b2 mr2 n (retryBatch b mr n ⟨hf, FailStore.present rs true⟩).state =
      ⟨false, (retryBatch b mr n ⟨hf, FailStore.present rs true⟩).state, []⟩ := by
  constructor
  · unfold retryBatch
    rw [h1]
  · obtain ⟨rec, hsh, hfind, heq⟩ := retryBatch_success_state b mr n hf rs h2
    rw [heq]
    unfold retryBatch
    dsimp only [getFailedBatches]
    rw [find?_filter_ne_none]

/-- Witness for C5: the first resume of batch 1 succeeds immediately against
a one-record store; resuming against an absent store, and resuming batch 1
again after the success, both return false untouched. -/
theorem C5_resume_idempotence_witness :
    retryBatch (fun _ => Except.ok "h") 3 1 ⟨[], FailStore.absent⟩ =
      ⟨false, ⟨[], FailStore.absent⟩, []⟩ ∧
    retryBatch (fun _ => Except.ok "k") 3 1
        (retryBatch (fun _ => Except.ok "h") 3 1
          ⟨[], FailStore.present [⟨1, [⟨"a", 1⟩], "e"⟩] true⟩).state =
      ⟨false,
        (retryBatch (fun _ => Except.ok "h") 3 1
          ⟨[], FailStore.present [⟨1, [⟨"a", 1⟩], "e"⟩] true⟩).state, []⟩ :=
  C5_resume_idempotence (fun _ => Except.ok "h") (fun _ => Except.ok "k") 3 3 1
    ⟨[], FailStore.absent⟩ [] [⟨1, [⟨"a", 1⟩], "e"⟩] (by rfl) (by rfl)

/-- Claim C6 counterexample: with maxRetries = 3 and a Transaction Builder
that fails every attempt, the resume attempt loop of retryBatch makes 3
submission attempts, not maxRetries + 1 = 4 as the claim states (the
initial-run loop under the same settings makes 4). -/
theorem C6_counterexample :
    (resumeLoop [⟨"a", 1⟩] (fun _ => Except.error "x") 3).attempts = 3 ∧
    (resumeLoop [⟨"a", 1⟩] (fun _ => Except.error "x") 3).attempts ≠ 3 + 1 ∧
    (retryLoop [⟨"a", 1⟩] (fun _ => Except.error "x") 3 5).attempts = 3 + 1 := by
  refine ⟨rfl, by decide, rfl⟩

theorem resumeLoopGo_attempts_le (R : List Recipient)
    (b : Nat → Except String String) :
    ∀ (remaining c : Nat), (resumeLoopGo R b remaining c).attempts ≤ remaining := by
  intro remaining
  induction remaining with
  | zero => intro c; exact Nat.le_refl 0
  | succ m ih =>
      intro c
      cases hbc : b c with
      | ok h => simp [resumeLoopGo, hbc]
      | error e =>
          simp only [resumeLoopGo, hbc]
          have := ih (c + 1)
          omega

theorem resumeLoopGo_allFail (R : List Recipient)
    (b : Nat → Except String String) :
    ∀ (remaining c : Nat),
      (∀ k, c ≤ k → k < c + remaining → (b k).isOk = false) →
      (resumeLoopGo R b remaining c).hash = none ∧
      (resumeLoopGo R b remaining c).attempts = remaining ∧
      (0 < remaining →
        (resumeLoopGo R b remaining c).trace =
          Ev.submit R c ::
            (List.range' (c + 1) (remaining - 1)).flatMap
              (fun k => [Ev.sleep 10000, Ev.submit R k])) := by
  intro remaining
  induction remaining with
  | zero => intro c hb; exact ⟨rfl, rfl, fun h => absurd h (by omega)⟩
  | succ m ih =>
      intro c hb
      have hc : (b c).isOk = false := hb c le_rfl (by omega)
      cases hbc : b c with
      | ok h => rw [hbc] at hc; simp [Except.isOk, Except.toBool] at hc
      | error e =>
          have ihc := ih (c + 1) (fun k hk1 hk2 => hb k (by omega) (by omega))
          refine ⟨?_, ?_, fun _ => ?_⟩
          · simp only [resumeLoopGo, hbc]
            exact ihc.1
          · simp only [resumeLoopGo, hbc]
            rw [ihc.2.1]
          · have hunfold : (resumeLoopGo R b (m + 1) c).trace =
                Ev.submit R c :: ((if 0 < m then [Ev.sleep 10000] else []) ++
                  (resumeLoopGo R b m (c + 1)).trace) := by
              conv_lhs => rw [resumeLoopGo]
              rw [hbc]
            rw [hunfold]
            cases m with
            | zero => rfl
            | succ m1 =>
                rw [ihc.2.2 (by omega)]
                rw [if_pos (by omega : 0 < m1 + 1)]
                rw [show m1 + 1 + 1 - 1 = m1 + 1 from rfl]
                rw [List.range'_succ, List.flatMap_cons]
                simp

theorem retryAllAux_order (builder : Nat → Nat → Except String String)
    (mr : Nat) :
    ∀ (rl : List FailureRecord) (i : Nat) (st : RetrierState),
      (retryAllAux builder mr i rl st).order =
        rl.map (fun r => r.batchNumber) := by
  intro rl
  induction rl with
  | nil => intro i st; rfl
  | cons rec rest ih =>
      intro i st
      simp only [retryAllAux, List.map_cons]
      rw [ih]

theorem retryBatch_trace_snapshot (b : Nat → Except String String)
    (mr n : Nat) (st : RetrierState) (rec : FailureRecord)
    (hfind : (getFailedBatches st.failStore).find?
        (fun r => r.batchNumber == n) = some rec) :
    (retryBatch b mr n st).trace = (resumeLoop rec.recipients b mr).trace := by
  unfold retryBatch
  rw [hfind]
  dsimp only
  cases hres : (resumeLoop rec.recipients b mr).hash with
  | some h => rfl
  | none => rfl

/-- Claim C6 as amended: the resume engine uses an analogous
attempt-with-retry-and-delay loop, but with up to maxRetries total
submission attempts (exactly maxRetries when every attempt fails — one
fewer than the initial run) and a fixed 10000 ms delay between attempts,
not before the first and not after the last; every submission of a resumed
batch carries the recipient snapshot of its FailureRecord rather than a
re-split list, and resume-all processes the outstanding records in their
stored order one at a time. -/
theorem C6_resume_algorithm (R R2 : List Recipient)
    (b b2 b3 : Nat → Except String String) (mr mr2 mr3 n : Nat)
    (st : RetrierState) (rec : FailureRecord)
    (bb : Nat → Nat → Except String String) (mr4 : Nat) (st4 : RetrierState)
    (hb : ∀ k, k < mr → (b k).isOk = false) (hmr : 0 < mr)
    (hfind : (getFailedBatches st.failStore).find?
        (fun r => r.batchNumber == n) = some rec) :
    (resumeLoop R2 b2 mr2).attempts ≤ mr2 ∧
    (resumeLoop R b mr).attempts = mr ∧
    (resumeLoop R b mr).trace =
      Ev.submit R 0 ::
        (List.range' 1 (mr - 1)).flatMap
          (fun k => [Ev.sleep 10000, Ev.submit R k]) ∧
    (retryBatch b3 mr3 n st).trace = (resumeLoop rec.recipients b3 mr3).trace ∧
    (retryAllBatches bb mr4 st4).order =
      (getFailedBatches st4.failStore).map (fun r => r.batchNumber) := by
  have h := resumeLoopGo_allFail R b mr 0 (fun k hk1 hk2 => hb k (by omega))
  refine ⟨resumeLoopGo_attempts_le R2 b2 mr2 0, h.2.1, ?_, ?_, ?_⟩
  · exact h.2.2 hmr
  · exact retryBatch_trace_snapshot b3 mr3 n st rec hfind
  · exact retryAllAux_order bb mr4 (getFailedBatches st4.failStore) 0 st4

/-- Witness for C6 as amended at maxRetries = 3 with an always failing
builder, a concrete one-record store, and a concrete two-record store for
the resume-all ordering. -/
theorem C6_resume_algorithm_witness :
    (resumeLoop [⟨"b", 2⟩] (fun _ => Except.ok "h") 2).attempts ≤ 2 ∧
    (resumeLoop [⟨"a", 1⟩] (fun _ => Except.error "x") 3).attempts = 3 ∧
    (resumeLoop [⟨"a", 1⟩] (fun _ => Except.error "x") 3).trace =
      Ev.submit [⟨"a", 1⟩] 0 ::
        (List.range' 1 (3 - 1)).flatMap
          (fun k => [Ev.sleep 10000, Ev.submit [⟨"a", 1⟩] k]) ∧
    (retryBatch (fun _ => Except.ok "h") 2 1
        ⟨[], FailStore.present [⟨1, [⟨"c", 3⟩], "e"⟩] true⟩).trace =
      (resumeLoop (FailureRecord.mk 1 [⟨"c", 3⟩] "e").recipients
        (fun _ => Except.ok "h") 2).trace ∧
    (retryAllBatches (fun _ _ => Except.ok "h") 2
        ⟨[], FailStore.present [⟨2, [⟨"a", 1⟩], "e"⟩, ⟨1, [⟨"b", 2⟩], "f"⟩] true⟩).order =
      (getFailedBatches
          (FailStore.present [⟨2, [⟨"a", 1⟩], "e"⟩, ⟨1, [⟨"b", 2⟩], "f"⟩] true)).map
        (fun r => r.batchNumber) :=
  C6_resume_algorithm [⟨"a", 1⟩] [⟨"b", 2⟩] (fun _ => Except.error "x")
    (fun _ => Except.ok "h") (fun _ => Except.ok "h") 3 2 2 1
    ⟨[], FailStore.present [⟨1, [⟨"c", 3⟩], "e"⟩] true⟩
    ⟨1, [⟨"c", 3⟩], "e"⟩ (fun _ _ => Except.ok "h") 2
    ⟨[], FailStore.present [⟨2, [⟨"a", 1⟩], "e"⟩, ⟨1, [⟨"b", 2⟩], "f"⟩] true⟩
    (by decide) (by decide) (by rfl)

/-- Claim C7: balance check precedes submission.  executeMultiSend computes
the batch total as the arbitrary-precision sum of the recipient amounts and,
when the sender balance is below it, fails with the distinctly labelled
insufficient-balance error without ever invoking signAndBroadcast (the
second component of the result records whether it was invoked). -/
theorem C7_balance_check (sender : String) (balance : Nat)
    (sab : MultiSendTxM → Except String String) (recipients : List Recipient)
    (hlt : balance < batchTotal recipients) :
    executeMultiSend sender balance sab recipients =
      (Except.error ("Insufficient balance. Required: " ++
        toString (batchTotal recipients) ++ ", Available: " ++ toString balance),
        false) := by
  simp [executeMultiSend, hlt]

/-- Witness for C7: balance 3 against a batch totalling 5. -/
theorem C7_balance_check_witness :
    executeMultiSend "s" 3 (fun _ => Except.ok "h") [⟨"a", 5⟩] =
      (Except.error ("Insufficient balance. Required: " ++
        toString (batchTotal [(⟨"a", 5⟩ : Recipient)]) ++ ", Available: " ++
        toString 3), false) :=
  C7_balance_check "s" 3 (fun _ => Except.ok "h") [⟨"a", 5⟩] (by decide)

/-- Claim C9 counterexample: with a valid wallet identity and a non-empty
recipient list, batchSize = 0 (which is < 1) passes every pre-batching
check — no configuration error is surfaced before batching begins,
contradicting the claim that an invalid batch size is surfaced as a fatal
configuration error immediately. -/
theorem C9_counterexample :
    preBatchingFatalError (some "m") none [⟨"a", 1⟩] 0 = false ∧
    (0 : Int) < 1 :=
  ⟨rfl, by decide⟩

/-- Claim C9 as amended: the engine performs no batchSize validation.  The
pre-batching fatal checks are exactly wallet-identity validation and
non-emptiness of the recipient list, independent of batchSize, so a
batchSize < 1 surfaces no configuration error and reaches the Batcher
(which treats batchSize >= 1 purely as a precondition; the source batching
loop does not terminate on batchSize = 0). -/
theorem C9_no_batchsize_validation (m p : Option String) (r : List Recipient)
    (bs1 bs2 : Int) :
    preBatchingFatalError m p r bs1 = preBatchingFatalError m p r bs2 ∧
    (preBatchingFatalError m p r bs1 = false ↔
      validateConfig m p = true ∧ r.isEmpty = false) := by
  constructor
  · rfl
  · unfold preBatchingFatalError
    cases validateConfig m p <;> cases hre : r.isEmpty <;> simp

end ZigMultisend
